import Mathlib

/-!
Shallow embedding of the PolyBot RAG chatbot core
(`src/Bot/document_processor.py`, `src/Bot/rag_chain.py`,
`src/Bot/chatbot_memory.py`).

External capabilities (the embedding model, the FAISS index internals, the
text splitter, the chat model, the Supabase client) are modelled as explicit
function parameters or as association-list state; the Python control flow of
the repository's own functions is translated directly.
-/

namespace GPTProb

/-- A document chunk stored in a session's vector index: the chunk text plus
the metadata attached in `process_file` (source file name and file type). -/
structure Chunk where
  content : String
  source : String
  file_type : String
deriving DecidableEq, Repr

/-- The `DocumentProcessor.vectorstores` dictionary: an association list from
session id to the chunks held by that session's index, in insertion order. -/
abbrev VectorStores : Type := List (String × List Chunk)

/-- Dictionary lookup, mirroring `session_id in self.vectorstores` and
`self.vectorstores[session_id]`. -/
def findEntry (k : String) : List (String × β) → Option β
  | [] => none
  | p :: rest => if p.1 = k then some p.2 else findEntry k rest

/-- In-place replacement of the value stored under a key, mirroring mutation
of `self.vectorstores[session_id]` (and a keyed SQL update). -/
def setEntry (k : String) (v : β) (l : List (String × β)) : List (String × β) :=
  l.map fun p => if p.1 = k then (k, v) else p

/-- Splitting a character list at every dot, mirroring Python's
`name.split(".")`. -/
def splitDots : List Char → List (List Char)
  | [] => [[]]
  | c :: cs =>
    let r := splitDots cs
    if c = '.' then [] :: r
    else
      match r with
      | [] => [[c]]
      | s :: rest => (c :: s) :: rest

/-- Mirrors `uploaded_file.name.split(".")[-1].lower()` in `process_file`. -/
def fileExtension (name : String) : String :=
  String.mk (((splitDots name.data).getLastD []).map Char.toLower)

/-- The file extensions accepted by the dispatch in `process_file`. -/
def supportedExts : List String := ["pdf", "docx", "xlsx", "xls", "pptx", "txt"]

/-- Outcome of one `process_file` call: the returned boolean, the vectorstore
map after the call, and whether the temporary file holding the upload was
deleted (`os.unlink`) before returning. -/
structure ProcessOutput where
  ok : Bool
  store : VectorStores
  tmpDeleted : Bool
deriving DecidableEq, Repr

/-- Shallow embedding of `DocumentProcessor.process_file`.

Calls into external libraries are parameters: `split` stands for
`RecursiveCharacterTextSplitter.split_documents` (text to chunk texts, each
chunk inheriting the document metadata built from the upload's name and
extension) and `extract` stands for the outcome of the type-specific
extractor run on the temporary file (`Except.error` is a raised Python
exception, caught by the function's `except` block). The temporary file is
written first with `delete=False`; `tmpDeleted` records whether some path
called `os.unlink` before returning — the `except` handler returns `False`
without unlinking. Indexing keeps chunks in insertion order: a new session
key maps to the fresh chunk list, an existing one is extended via
`add_documents`. -/
def process_file (split : String → List String) (extract : Except String String)
    (name session_id : String) (st : VectorStores) : ProcessOutput :=
  let ext := fileExtension name
  if ext ∈ supportedExts then
    match extract with
    | Except.error _ => ⟨false, st, false⟩
    | Except.ok text =>
      if text = "" then ⟨false, st, true⟩
      else
        let chunks := (split text).map fun t => Chunk.mk t name ext
        match findEntry session_id st with
        | some existing => ⟨true, setEntry session_id (existing ++ chunks) st, true⟩
        | none => ⟨true, st ++ [(session_id, chunks)], true⟩
  else ⟨false, st, true⟩

/-- Ranking order used to model the retrieval index: ascending vector
distance, ties broken by original insertion position. -/
def rankLE (a b : Nat × Chunk × ℚ) : Prop :=
  a.2.2 < b.2.2 ∨ (a.2.2 = b.2.2 ∧ a.1 ≤ b.1)

/-- Strict version of `rankLE`: strictly closer, or equally close and
strictly earlier insertion position. -/
def rankLT (a b : Nat × Chunk × ℚ) : Prop :=
  a.2.2 < b.2.2 ∨ (a.2.2 = b.2.2 ∧ a.1 < b.1)

instance : DecidableRel rankLE := fun a b => by
  unfold rankLE; infer_instance

instance : DecidableRel rankLT := fun a b => by
  unfold rankLT; infer_instance

instance : IsTotal (Nat × Chunk × ℚ) rankLE where
  total a b := by
    rcases lt_trichotomy a.2.2 b.2.2 with h | h | h
    · exact Or.inl (Or.inl h)
    · rcases Nat.le_total a.1 b.1 with hle | hle
      · exact Or.inl (Or.inr ⟨h, hle⟩)
      · exact Or.inr (Or.inr ⟨h.symm, hle⟩)
    · exact Or.inr (Or.inl h)

instance : IsTrans (Nat × Chunk × ℚ) rankLE where
  trans a b c hab hbc := by
    rcases hab with hab | ⟨hab, hab2⟩
    · rcases hbc with hbc | ⟨hbc, _⟩
      · exact Or.inl (hab.trans hbc)
      · exact Or.inl (hbc ▸ hab)
    · rcases hbc with hbc | ⟨hbc, hbc2⟩
      · exact Or.inl (hab ▸ hbc)
      · exact Or.inr ⟨hab.trans hbc, hab2.trans hbc2⟩

/-- Modelled from the spec: the FAISS index behind
`vectorstore.similarity_search_with_score` is external library code, not part
of this repository. Section 4.4 fixes its result order: chunks ranked by
ascending distance to the query, ties broken by original insertion order.
`dist` stands for the composition of the (deterministic) embedding of query
and chunk with the vector distance; each ranked entry carries its insertion
position. -/
def rankedSearch (dist : String → String → ℚ) (query : String)
    (chunks : List Chunk) : List (Nat × Chunk × ℚ) :=
  List.insertionSort rankLE
    (chunks.enum.map fun p => (p.1, p.2, dist query p.2.content))

/-- Modelled from the spec: `similarity_search_with_score(query, k)` returns
the `k` nearest chunks with their distance scores, closest first
(section 4.4), and at most the whole index. -/
def similarity_search_with_score (dist : String → String → ℚ) (query : String)
    (chunks : List Chunk) (k : Nat) : List (Chunk × ℚ) :=
  ((rankedSearch dist query chunks).take k).map fun r => (r.2.1, r.2.2)

/-- One formatted retrieval result from `query_documents`: the chunk text,
its metadata fields, and the distance score. -/
structure QueryResult where
  content : String
  source : String
  file_type : String
  score : ℚ
deriving DecidableEq, Repr

/-- Shallow embedding of `DocumentProcessor.query_documents`: an unknown
session id yields `[]`; otherwise the session's index is searched and the
scored results are formatted. -/
def query_documents (st : VectorStores) (dist : String → String → ℚ)
    (query session_id : String) (k : Nat := 4) : List QueryResult :=
  match findEntry session_id st with
  | none => []
  | some chunks =>
    (similarity_search_with_score dist query chunks k).map fun r =>
      QueryResult.mk r.1.content r.1.source r.1.file_type r.2

/-- Shallow embedding of `DocumentProcessor.clear_documents`: drop the
session's index entry and report whether there was one. -/
def clear_documents (session_id : String) (st : VectorStores) :
    Bool × VectorStores :=
  match findEntry session_id st with
  | some _ => (true, st.filter fun p => p.1 != session_id)
  | none => (false, st)

/-- Constant `MAX_HISTORY_LENGTH` from `chatbot_memory.py`. -/
def MAX_HISTORY_LENGTH : Nat := 20

/-- Python slice `l[-n:]` for positive `n`: the last `n` elements (all of
them when the list is shorter). -/
def lastN (n : Nat) (l : List α) : List α := l.drop (l.length - n)

/-- Shallow embedding of `trim_history`. -/
def trim_history (history : List α)
    (max_length : Nat := MAX_HISTORY_LENGTH) : List α :=
  if history.length > max_length then lastN max_length history else history

/-- One message handed to the chat model: a role/content pair. -/
structure Msg where
  role : String
  content : String
deriving DecidableEq, Repr

/-- Modelled from the spec: the generation capability (section 6) is an
external black box; a call either returns the answer text or fails, and a
failure surfaces to the Python caller as a raised exception
(`Except.error`). -/
def GenCapability : Type := List Msg → Except String String

/-- System message built in `invoke_with_language`. -/
def iwlSystemMsg (language : String) : String :=
  "You are a helpful assistant. Please respond in " ++ language ++
    ". If you don't know how to speak " ++ language ++
    ", do your best to translate your response to " ++ language ++ "."

/-- Shallow embedding of `invoke_with_language`. `apiKey` is the key found in
session state or the environment (`none` aborts with no answer);
`storedHistory` is the `(role, message)` list read back from the `history`
table; `messages` are the contents of the new user messages. The streaming
loop concatenates the fragments into one answer, so a successful call yields
the full text; a raised exception is caught and the error description itself
is returned as the answer. -/
def invoke_with_language (gen : GenCapability) (apiKey : Option String)
    (storedHistory : List (String × String)) (messages : List String)
    (language : String := "English") : Option String :=
  match apiKey with
  | none => none
  | some _ =>
    let formatted : List Msg :=
      Msg.mk "system" (iwlSystemMsg language) ::
        (((lastN MAX_HISTORY_LENGTH storedHistory).map fun m => Msg.mk m.1 m.2) ++
          messages.map fun c => Msg.mk "user" c)
    match gen formatted with
    | Except.ok r => some r
    | Except.error e => some ("Error generating response: " ++ e)

/-- Answer structure returned by `RAGChain.answer_question`: the answer text
and the source chunks used. -/
structure RagAnswer where
  answer : String
  sources : List QueryResult
deriving DecidableEq, Repr

/-- Chat-history window rendered by `answer_question`: the last five messages
as "User: ..." and "Assistant: ..." lines. -/
def formatHistory (chat_history : List (String × String)) : String :=
  (lastN 5 chat_history).foldl
    (fun acc m =>
      acc ++ (if m.1 = "user" then "User" else "Assistant") ++ ": " ++ m.2 ++ "\n")
    ""

/-- System message of the ungrounded branch of `answer_question`. -/
def ragSystemMsg (language : String) : String :=
  "You are a helpful assistant. Please respond in " ++ language ++ "."

/-- User message of the ungrounded branch of `answer_question`. -/
def ragUserMsg (formatted_history question : String) : String :=
  "Previous conversation:\n" ++ formatted_history ++ "\n\nQuestion: " ++ question

/-- Context block of the grounded branch of `answer_question`. -/
def ragContext (docs : List QueryResult) : String :=
  String.intercalate "\n\n"
    (docs.map fun d => "Document: " ++ d.source ++ "\nContent: " ++ d.content)

/-- Prompt template of `RAGChain`, with its four variables substituted. -/
def ragPrompt (question context chat_history language : String) : String :=
  "\n            You are an AI assistant that answers questions based on provided context from documents.\n            \n            Context information is below:\n            ---------------------\n            " ++
    context ++
    "\n            ---------------------\n            \n            Previous conversation history:\n            ---------------------\n            " ++
    chat_history ++
    "\n            ---------------------\n            \n            Given the context information and the conversation history, answer the question: " ++
    question ++
    "\n            \n            If the answer cannot be determined from the context, you can use your general knowledge to provide a helpful response.\n            \n            IMPORTANT: You must respond in " ++
    language ++ ". If you don't know how to speak " ++ language ++
    ", do your best to translate your response to " ++ language ++
    ".\n            \n            Provide a comprehensive answer and cite the specific parts of the documents you're using when applicable.\n            "

/-- Shallow embedding of `RAGChain.answer_question`. Retrieval uses the
session's index with the default `k = 4`. When no chunk comes back the model
is invoked directly (ungrounded); otherwise the filled prompt template is
sent (grounded). Neither branch is wrapped in a handler, so a generation
failure propagates out as `Except.error`. -/
def answer_question (gen : GenCapability) (dist : String → String → ℚ)
    (st : VectorStores) (question session_id : String)
    (chat_history : List (String × String)) (language : String := "English") :
    Except String RagAnswer :=
  let docs := query_documents st dist question session_id 4
  let formatted_history := formatHistory chat_history
  if docs.isEmpty then
    match gen [Msg.mk "system" (ragSystemMsg language),
               Msg.mk "user" (ragUserMsg formatted_history question)] with
    | Except.ok r => Except.ok (RagAnswer.mk r [])
    | Except.error e => Except.error e
  else
    match gen [Msg.mk "user"
        (ragPrompt question (ragContext docs) formatted_history language)] with
    | Except.ok r => Except.ok (RagAnswer.mk r docs)
    | Except.error e => Except.error e

/-- Row of the `sessions` table as written by the code (server-assigned
timestamps omitted). -/
structure SessionRow where
  name : String
  language : String
deriving DecidableEq, Repr

/-- Row of the `history` table as written by the code (server-assigned
timestamp omitted; list order is insertion order). -/
structure HistoryRow where
  session_id : String
  role : String
  message : String
deriving DecidableEq, Repr

/-- The two persisted tables of the Supabase store. -/
structure SupabaseState where
  sessions : List (String × SessionRow)
  history : List HistoryRow
deriving DecidableEq, Repr

/-- Shallow embedding of `save_session_to_supabase`: update the existing row
keyed by session id, or insert a new one. -/
def save_session_to_supabase (session_id session_name : String)
    (language : String := "English") (db : SupabaseState) : SupabaseState :=
  match findEntry session_id db.sessions with
  | some _ =>
    { db with
        sessions := setEntry session_id (SessionRow.mk session_name language) db.sessions }
  | none =>
    { db with
        sessions := db.sessions ++ [(session_id, SessionRow.mk session_name language)] }

/-- Shallow embedding of `save_message_to_supabase`: first upsert the session
row with the fixed name "Untitled Chat" (and the default language "English"),
then append the message row. -/
def save_message_to_supabase (session_id role message : String)
    (db : SupabaseState) : SupabaseState :=
  let db1 := save_session_to_supabase session_id "Untitled Chat" "English" db
  { db1 with history := db1.history ++ [HistoryRow.mk session_id role message] }

/-! Helper lemmas about the association-list state. -/

/-- Looking a key up after replacing its value finds the new value. -/
theorem findEntry_setEntry (k : String) (w : β) (l : List (String × β)) (v : β)
    (h : findEntry k l = some v) : findEntry k (setEntry k w l) = some w := by
  induction l with
  | nil => simp [findEntry] at h
  | cons p rest ih =>
    by_cases hp : p.1 = k
    · simp [findEntry, setEntry, hp]
    · simp [findEntry, setEntry, hp] at h ⊢
      exact ih h

/-- Looking a fresh key up after appending its entry finds that entry. -/
theorem findEntry_append_single (k : String) (v : β) (l : List (String × β))
    (h : findEntry k l = none) : findEntry k (l ++ [(k, v)]) = some v := by
  induction l with
  | nil => simp [findEntry]
  | cons p rest ih =>
    by_cases hp : p.1 = k
    · simp [findEntry, hp] at h
    · simp [findEntry, hp] at h ⊢
      exact ih h

/-- After filtering a key out of the map, lookup of that key fails. -/
theorem findEntry_filter_ne (k : String) (l : List (String × β)) :
    findEntry k (l.filter fun p => p.1 != k) = none := by
  induction l with
  | nil => simp [findEntry]
  | cons p rest ih =>
    by_cases hp : p.1 = k
    · simpa [List.filter_cons, hp] using ih
    · simpa [List.filter_cons, findEntry, hp] using ih

/-- C4: `trim_history` with the default maximum returns exactly the last 20
entries in their original order when the history is longer than 20 entries,
and returns the history unchanged when its length is at most 20. -/
theorem C4_trim_history_window (l₁ l₂ h : List α)
    (h20 : l₂.length = MAX_HISTORY_LENGTH)
    (hle : h.length ≤ MAX_HISTORY_LENGTH) :
    trim_history (l₁ ++ l₂) = l₂ ∧ trim_history h = h := by
  refine ⟨?_, ?_⟩
  · rw [trim_history]
    by_cases hl : (l₁ ++ l₂).length > MAX_HISTORY_LENGTH
    · rw [if_pos hl]
      have hlen : (l₁ ++ l₂).length - MAX_HISTORY_LENGTH = l₁.length := by
        rw [List.length_append, h20]; omega
      rw [lastN, hlen]
      exact List.drop_left l₁ l₂
    · rw [if_neg hl]
      have h0 : l₁.length = 0 := by
        rw [List.length_append, h20] at hl; omega
      rw [List.eq_nil_of_length_eq_zero h0, List.nil_append]
  · rw [trim_history, if_neg (by omega)]

/-- C4 witness: the theorem applied to a 22-entry history and a 2-entry
history. -/
theorem C4_trim_history_window_witness :
    (List.range 20).length = MAX_HISTORY_LENGTH ∧
      ([5, 6] : List Nat).length ≤ MAX_HISTORY_LENGTH ∧
      (trim_history ([9, 8] ++ List.range 20) = List.range 20 ∧
        trim_history [5, 6] = [5, 6]) :=
  ⟨by decide, by decide,
    C4_trim_history_window [9, 8] (List.range 20) [5, 6] (by decide) (by decide)⟩

/-- C5: an upload whose declared type is outside the supported set fails,
creates no chunk and no index entry, leaves the whole vectorstore map (hence
any existing index) unchanged, and the temporary file is removed. -/
theorem C5_unsupported_type_rejected (split : String → List String)
    (extract : Except String String) (name session_id : String)
    (st : VectorStores) (h : fileExtension name ∉ supportedExts) :
    process_file split extract name session_id st =
      ProcessOutput.mk false st true := by
  simp [process_file, h]

/-- C5 witness: the theorem applied to an `.exe` upload against a session
that already holds one chunk. -/
theorem C5_unsupported_type_rejected_witness :
    fileExtension "virus.exe" ∉ supportedExts ∧
      process_file (fun t => [t]) (Except.ok "text") "virus.exe" "s"
          [("s", [Chunk.mk "old" "a.txt" "txt"])] =
        ProcessOutput.mk false [("s", [Chunk.mk "old" "a.txt" "txt"])] true :=
  ⟨by decide,
    C5_unsupported_type_rejected (fun t => [t]) (Except.ok "text") "virus.exe" "s"
      [("s", [Chunk.mk "old" "a.txt" "txt"])] (by decide)⟩

/-- C6: after a successful `clear_documents`, the session has no index entry
any more (document mode is back to NoDocuments, since that state is derived
from index presence alone) and an immediately following `query_documents` on
the session returns the empty list. -/
theorem C6_clear_then_query_empty (st : VectorStores) (session_id : String)
    (dist : String → String → ℚ) (q : String) (k : Nat)
    (h : (clear_documents session_id st).1 = true) :
    findEntry session_id (clear_documents session_id st).2 = none ∧
      query_documents (clear_documents session_id st).2 dist q session_id k = [] := by
  cases hf : findEntry session_id st with
  | none => simp [clear_documents, hf] at h
  | some l =>
    refine ⟨?_, ?_⟩
    · simp [clear_documents, hf, findEntry_filter_ne]
    · simp [clear_documents, hf, query_documents, findEntry_filter_ne]

/-- C6 witness: clearing a one-document session. -/
theorem C6_clear_then_query_empty_witness :
    (clear_documents "a" [("a", [Chunk.mk "c" "d.txt" "txt"])]).1 = true ∧
      (findEntry "a" (clear_documents "a" [("a", [Chunk.mk "c" "d.txt" "txt"])]).2 = none ∧
        query_documents (clear_documents "a" [("a", [Chunk.mk "c" "d.txt" "txt"])]).2
            (fun _ _ => 0) "hi" "a" 4 = []) :=
  ⟨by decide,
    C6_clear_then_query_empty [("a", [Chunk.mk "c" "d.txt" "txt"])] "a"
      (fun _ _ => 0) "hi" 4 (by decide)⟩

/-- C9: saving any message first upserts the session row with the fixed name
"Untitled Chat" and language "English" — overwriting the name and language of
an already existing row via the update branch — and then appends exactly the
one message row. -/
theorem C9_save_message_overwrites_session (db : SupabaseState)
    (session_id role message : String) :
    findEntry session_id (save_message_to_supabase session_id role message db).sessions =
        some (SessionRow.mk "Untitled Chat" "English") ∧
      (save_message_to_supabase session_id role message db).history =
        db.history ++ [HistoryRow.mk session_id role message] := by
  cases hf : findEntry session_id db.sessions with
  | some row =>
    refine ⟨?_, ?_⟩
    · simp only [save_message_to_supabase, save_session_to_supabase, hf]
      exact findEntry_setEntry _ _ _ _ hf
    · simp [save_message_to_supabase, save_session_to_supabase, hf]
  | none =>
    refine ⟨?_, ?_⟩
    · simp only [save_message_to_supabase, save_session_to_supabase, hf]
      exact findEntry_append_single _ _ _ hf
    · simp [save_message_to_supabase, save_session_to_supabase, hf]

/-- C10: `clear_documents` returns `true` exactly when the session has an
index entry, and on a session with no entry it returns `false` and leaves the
vectorstore map unchanged. -/
theorem C10_clear_documents_signal (st : VectorStores) (session_id : String) :
    (clear_documents session_id st).1 = (findEntry session_id st).isSome ∧
      (findEntry session_id st = none →
        clear_documents session_id st = (false, st)) := by
  cases hf : findEntry session_id st with
  | none => simp [clear_documents, hf]
  | some l => simp [clear_documents, hf]

/-- C10 witness: the theorem applied to a session with no index entry. -/
theorem C10_clear_documents_signal_witness :
    (clear_documents "b" [("a", [Chunk.mk "c" "d.txt" "txt"])]).1 =
        (findEntry "b" [("a", [Chunk.mk "c" "d.txt" "txt"])]).isSome ∧
      (findEntry "b" ([("a", [Chunk.mk "c" "d.txt" "txt"])] :
            List (String × List Chunk)) = none →
        clear_documents "b" [("a", [Chunk.mk "c" "d.txt" "txt"])] =
          (false, [("a", [Chunk.mk "c" "d.txt" "txt"])])) :=
  C10_clear_documents_signal [("a", [Chunk.mk "c" "d.txt" "txt"])] "b"

/-- Length of the ranked search result: ranking permutes the index. -/
theorem length_rankedSearch (dist : String → String → ℚ) (q : String)
    (l : List Chunk) : (rankedSearch dist q l).length = l.length := by
  rw [rankedSearch, (List.perm_insertionSort rankLE _).length_eq]
  simp

/-- Length of a `query_documents` result on a session holding `l`. -/
theorem length_query_documents (st : VectorStores) (dist : String → String → ℚ)
    (q session_id : String) (k : Nat) (l : List Chunk)
    (h : findEntry session_id st = some l) :
    (query_documents st dist q session_id k).length = min k l.length := by
  simp [query_documents, h, similarity_search_with_score, List.length_take,
    length_rankedSearch]

/-- C1: a session with no vectorstore entry makes `query_documents` return
the empty list without an error, and `answer_question` then takes the
ungrounded path: the generation capability is invoked directly with a system
instruction naming the target language, and the returned sources are the
empty list. -/
theorem C1_no_documents_ungrounded (st : VectorStores)
    (dist : String → String → ℚ) (gen : GenCapability)
    (q session_id language : String) (hist : List (String × String)) (k : Nat)
    (h : findEntry session_id st = none) :
    query_documents st dist q session_id k = [] ∧
      ragSystemMsg language =
        "You are a helpful assistant. Please respond in " ++ language ++ "." ∧
      answer_question gen dist st q session_id hist language =
        Except.map (fun t => RagAnswer.mk t [])
          (gen [Msg.mk "system" (ragSystemMsg language),
                Msg.mk "user" (ragUserMsg (formatHistory hist) q)]) := by
  refine ⟨by simp [query_documents, h], rfl, ?_⟩
  cases hgen : gen [Msg.mk "system" (ragSystemMsg language),
      Msg.mk "user" (ragUserMsg (formatHistory hist) q)] with
  | ok r => simp [answer_question, query_documents, h, hgen, Except.map]
  | error e => simp [answer_question, query_documents, h, hgen, Except.map]

/-- C1 witness: the theorem applied to a store that only indexes another
session. -/
theorem C1_no_documents_ungrounded_witness :
    findEntry "s" ([("other", [Chunk.mk "c" "f.txt" "txt"])] : VectorStores) = none ∧
      (query_documents [("other", [Chunk.mk "c" "f.txt" "txt"])] (fun _ _ => 0)
          "q" "s" 4 = [] ∧
        ragSystemMsg "English" =
          "You are a helpful assistant. Please respond in " ++ "English" ++ "." ∧
        answer_question (fun _ => Except.ok "hi") (fun _ _ => 0)
            [("other", [Chunk.mk "c" "f.txt" "txt"])] "q" "s"
            [("user", "hello")] "English" =
          Except.map (fun t => RagAnswer.mk t [])
            ((fun _ => Except.ok "hi" : GenCapability)
              [Msg.mk "system" (ragSystemMsg "English"),
               Msg.mk "user" (ragUserMsg (formatHistory [("user", "hello")]) "q")])) :=
  ⟨by decide,
    C1_no_documents_ungrounded [("other", [Chunk.mk "c" "f.txt" "txt"])]
      (fun _ _ => 0) (fun _ => Except.ok "hi") "q" "s" "English"
      [("user", "hello")] 4 (by decide)⟩

/-- C2: a second successful ingestion into a session that already has an
index appends the new document's chunks to the existing ones: the call
returns `True` and the index afterwards holds exactly the chunks of
document 1 followed by the chunks of document 2. -/
theorem C2_second_ingestion_appends (split : String → List String)
    (text name session_id : String) (st : VectorStores) (l : List Chunk)
    (h : findEntry session_id st = some l)
    (hext : fileExtension name ∈ supportedExts) (htext : text ≠ "") :
    (process_file split (Except.ok text) name session_id st).ok = true ∧
      findEntry session_id
          (process_file split (Except.ok text) name session_id st).store =
        some (l ++ (split text).map fun t => Chunk.mk t name (fileExtension name)) := by
  have hred : process_file split (Except.ok text) name session_id st =
      ProcessOutput.mk true
        (setEntry session_id
          (l ++ (split text).map fun t => Chunk.mk t name (fileExtension name)) st)
        true := by
    simp [process_file, hext, htext, h]
  rw [hred]
  exact ⟨rfl, findEntry_setEntry _ _ _ _ h⟩

/-- C2 witness: ingesting a second text file into a session that already
holds the chunks of a first document. -/
theorem C2_second_ingestion_appends_witness :
    findEntry "s" ([("s", [Chunk.mk "old" "a.txt" "txt"])] : VectorStores) =
        some [Chunk.mk "old" "a.txt" "txt"] ∧
      fileExtension "b.txt" ∈ supportedExts ∧
      ("new" : String) ≠ "" ∧
      ((process_file (fun t => [t]) (Except.ok "new") "b.txt" "s"
            [("s", [Chunk.mk "old" "a.txt" "txt"])]).ok = true ∧
        findEntry "s"
            (process_file (fun t => [t]) (Except.ok "new") "b.txt" "s"
              [("s", [Chunk.mk "old" "a.txt" "txt"])]).store =
          some ([Chunk.mk "old" "a.txt" "txt"] ++
            ((fun t => [t] : String → List String) "new").map
              fun t => Chunk.mk t "b.txt" (fileExtension "b.txt"))) :=
  ⟨by decide, by decide, by decide,
    C2_second_ingestion_appends (fun t => [t]) "new" "b.txt" "s"
      [("s", [Chunk.mk "old" "a.txt" "txt"])] [Chunk.mk "old" "a.txt" "txt"]
      (by decide) (by decide) (by decide)⟩

/-- C8: evaluation of the code at the failing input. A supported `.pdf`
upload whose extraction raises is caught by the `except` handler, which
returns `False` — but `tmpDeleted` is `false`: the handler has no
`os.unlink`, so on this exit path the temporary file holding the uploaded
bytes is not removed, contradicting the claim (and section 4.1 of the spec)
that every exit path deletes it. -/
theorem C8_tempfile_leak_on_exception :
    process_file (fun t => [t]) (Except.error "pdfplumber failure")
        "report.pdf" "session-1" [] =
      ProcessOutput.mk false [] false := by
  decide

/-- C7 counterexample: with one document ingested for session "s" and a
generation capability that fails, `answer_question` — the grounded answer
path — returns `Except.error` and no answer at all: the returned value holds
no answer text, so the "always return something" policy fails there,
refuting the claim that it holds on both answer paths. -/
theorem C7_grounded_path_counterexample :
    answer_question (fun _ => Except.error "boom") (fun _ _ => 0)
        [("s", [Chunk.mk "alpha" "a.txt" "txt"])] "q" "s" [] "English" =
      Except.error "boom" ∧
      (answer_question (fun _ => Except.error "boom") (fun _ _ => 0)
          [("s", [Chunk.mk "alpha" "a.txt" "txt"])] "q" "s" [] "English").toOption =
        none :=
  ⟨rfl, rfl⟩

/-- C7 amended: when the generation capability fails, the ungrounded app path
(`invoke_with_language`) still returns an answer whose text is the error
description prefixed with "Error generating response: ", so conversation flow
is preserved there; but `RAGChain.answer_question` wraps neither branch in a
handler, so on the grounded path (a session with a non-empty index) the
failure propagates as an exception and no answer is returned. -/
theorem C7_generation_failure_paths (e : String) (gen : GenCapability)
    (hg : ∀ m, gen m = Except.error e) (key : String)
    (storedHistory : List (String × String)) (messages : List String)
    (language : String) (dist : String → String → ℚ) (st : VectorStores)
    (q session_id : String) (hist : List (String × String)) (l : List Chunk)
    (hdoc : findEntry session_id st = some l) (hne : l ≠ []) :
    invoke_with_language gen (some key) storedHistory messages language =
        some ("Error generating response: " ++ e) ∧
      answer_question gen dist st q session_id hist language = Except.error e := by
  refine ⟨by simp [invoke_with_language, hg], ?_⟩
  have hlen := length_query_documents st dist q session_id 4 l hdoc
  have hpos : 0 < l.length := List.length_pos.mpr hne
  have hne2 : query_documents st dist q session_id 4 ≠ [] := by
    intro h0
    rw [h0] at hlen
    simp at hlen
    omega
  have hempty : (query_documents st dist q session_id 4).isEmpty = false := by
    cases hq : query_documents st dist q session_id 4 with
    | nil => exact absurd hq hne2
    | cons a as => exact List.isEmpty_cons
  simp [answer_question, hempty, hg]

/-- C7 amended witness: a failing capability against a one-chunk session. -/
theorem C7_generation_failure_paths_witness :
    invoke_with_language (fun _ => Except.error "boom") (some "k") [] ["hi"]
        "English" =
      some ("Error generating response: " ++ "boom") ∧
      answer_question (fun _ => Except.error "boom") (fun _ _ => 0)
          [("s", [Chunk.mk "alpha" "a.txt" "txt"])] "q" "s" [] "English" =
        Except.error "boom" :=
  C7_generation_failure_paths "boom" (fun _ => Except.error "boom")
    (fun _ => rfl) "k" [] ["hi"] "English" (fun _ _ => 0)
    [("s", [Chunk.mk "alpha" "a.txt" "txt"])] "q" "s" []
    [Chunk.mk "alpha" "a.txt" "txt"] rfl (by decide)

/-- C3: for a session holding the non-empty chunk list `l`,
`query_documents` formats exactly the `k` first entries of the ranked search;
the ranked entries are strictly ordered — ascending by distance, ties broken
by strictly increasing insertion position; the number of results is `k`
capped at the index size, so a `k` beyond the index size raises no error; and
when `k` covers the whole index, the chunks returned are exactly the
session's chunks. -/
theorem C3_query_ranking (st : VectorStores) (dist : String → String → ℚ)
    (q session_id : String) (k : Nat) (l : List Chunk)
    (h : findEntry session_id st = some l) (_hne : l ≠ []) :
    query_documents st dist q session_id k =
        ((rankedSearch dist q l).take k).map
          (fun r => QueryResult.mk r.2.1.content r.2.1.source r.2.1.file_type r.2.2) ∧
      List.Pairwise rankLT ((rankedSearch dist q l).take k) ∧
      (query_documents st dist q session_id k).length = min k l.length ∧
      (l.length ≤ k →
        (((rankedSearch dist q l).take k).map fun r => r.2.1).Perm l) := by
  have hperm : (rankedSearch dist q l).Perm
      (l.enum.map fun p => (p.1, p.2, dist q p.2.content)) :=
    List.perm_insertionSort rankLE _
  refine ⟨?_, ?_, ?_, ?_⟩
  · simp only [query_documents, h, similarity_search_with_score, List.map_map]
    rfl
  · have hsorted : List.Pairwise rankLE (rankedSearch dist q l) :=
      List.sorted_insertionSort rankLE _
    have hnodup : ((rankedSearch dist q l).map Prod.fst).Nodup := by
      have hbase : ((l.enum.map fun p => (p.1, p.2, dist q p.2.content)).map
          Prod.fst).Nodup := by
        rw [List.map_map]
        have hfst : (Prod.fst ∘ fun p : Nat × Chunk =>
            (p.1, p.2, dist q p.2.content)) = Prod.fst := rfl
        rw [hfst, List.enum_map_fst]
        exact List.nodup_range l.length
      exact ((hperm.map Prod.fst).nodup_iff).mpr hbase
    have hne_fst : List.Pairwise
        (fun a b : Nat × Chunk × ℚ => a.1 ≠ b.1) (rankedSearch dist q l) :=
      List.pairwise_map.mp hnodup
    have hLT : List.Pairwise rankLT (rankedSearch dist q l) := by
      refine (hsorted.and hne_fst).imp ?_
      intro a b hab
      obtain ⟨hab1, hfst⟩ := hab
      rcases hab1 with hlt | ⟨heq, hle2⟩
      · exact Or.inl hlt
      · exact Or.inr ⟨heq, lt_of_le_of_ne hle2 hfst⟩
    exact List.Pairwise.sublist (List.take_sublist k _) hLT
  · exact length_query_documents st dist q session_id k l h
  · intro hk
    have htake : (rankedSearch dist q l).take k = rankedSearch dist q l :=
      List.take_of_length_le (by rw [length_rankedSearch]; exact hk)
    rw [htake]
    have hmap := hperm.map (fun r : Nat × Chunk × ℚ => r.2.1)
    have hcollapse : ((l.enum.map fun p => (p.1, p.2, dist q p.2.content)).map
        fun r : Nat × Chunk × ℚ => r.2.1) = l := by
      rw [List.map_map]
      have hsnd : ((fun r : Nat × Chunk × ℚ => r.2.1) ∘
          fun p : Nat × Chunk => (p.1, p.2, dist q p.2.content)) = Prod.snd := rfl
      rw [hsnd, List.enum_map_snd]
    rw [hcollapse] at hmap
    exact hmap

/-- Three concrete chunks used to exercise the retrieval theorem. -/
def chunksC3 : List Chunk :=
  [Chunk.mk "alpha" "a.txt" "txt", Chunk.mk "beta" "a.txt" "txt",
   Chunk.mk "gamma" "a.txt" "txt"]

/-- Concrete distance: "beta" is closest, the other two tie behind it. -/
def distC3 : String → String → ℚ := fun _ c => if c = "beta" then 1 else 2

/-- C3 witness: the theorem applied to a three-chunk session with `k = 2`. -/
theorem C3_query_ranking_witness :
    findEntry "s" ([("s", chunksC3)] : VectorStores) = some chunksC3 ∧
      chunksC3 ≠ [] ∧
      (query_documents [("s", chunksC3)] distC3 "q" "s" 2 =
          ((rankedSearch distC3 "q" chunksC3).take 2).map
            (fun r => QueryResult.mk r.2.1.content r.2.1.source r.2.1.file_type r.2.2) ∧
        List.Pairwise rankLT ((rankedSearch distC3 "q" chunksC3).take 2) ∧
        (query_documents [("s", chunksC3)] distC3 "q" "s" 2).length =
          min 2 chunksC3.length ∧
        (chunksC3.length ≤ 2 →
          (((rankedSearch distC3 "q" chunksC3).take 2).map fun r => r.2.1).Perm
            chunksC3)) :=
  ⟨rfl, by decide,
    C3_query_ranking [("s", chunksC3)] distC3 "q" "s" 2 chunksC3 rfl (by decide)⟩

end GPTProb
